import Mathlib

/-!
Verification of the treewalk producer stage of `dcp` (src/src/treewalk.c).

The C code is shallowly embedded: paths and directory-entry names are byte
lists (`List Nat`, one element per `char`), machine-integer truncation is
explicit `% 2 ^ 32`, and the side effects of one callback invocation
(directory creation, directory opening, enqueueing encoded operations,
fatal process exit) are recorded as an ordered `List Effect`.  The
filesystem seen by one invocation is passed in explicitly: the result of
`lstat` on the operand and, for directories, the `readdir` listing (or
`none` when `opendir` fails).
-/

/-- Operation kinds used by this stage (`TREEWALK` and `COPY` are the ones
treewalk.c constructs; further downstream kinds are out of scope). -/
inductive OpKind where
  | TREEWALK
  | COPY
deriving DecidableEq

/-- The work item carried on the queue (`DCOPY_operation_t`): kind tag,
chunk index, operand path (bytes), count of leading source-root bytes,
optional destination sub-path, and total file size in bytes. -/
structure DCOPY_operation_t where
  kind : OpKind
  chunk : Nat
  operand : List Nat
  source_base_offset : Nat
  dest_base_appendix : Option (List Nat)
  file_size : Nat
deriving DecidableEq

/-- User options consumed by treewalk.c (`DCOPY_options_t` fields it reads). -/
structure DCOPY_options_t where
  reliable_filesystem : Bool
  dest_path : List Nat
deriving DecidableEq

/-- The fields of `struct stat` that treewalk.c reads. -/
structure StatBuf where
  st_mode : Nat
  st_size : Nat
deriving DecidableEq

/-- POSIX file-type mask of `st_mode`. -/
def S_IFMT : Nat := 0xF000

/-- POSIX directory file type. -/
def S_IFDIR : Nat := 0x4000

/-- POSIX regular-file file type. -/
def S_IFREG : Nat := 0x8000

/-- POSIX symbolic-link file type. -/
def S_IFLNK : Nat := 0xA000

/-- `S_ISDIR(m)`: the file-type bits of `m` equal `S_IFDIR`. -/
def S_ISDIR (m : Nat) : Bool := (m &&& S_IFMT) == S_IFDIR

/-- `S_ISREG(m)`: the file-type bits of `m` equal `S_IFREG`. -/
def S_ISREG (m : Nat) : Bool := (m &&& S_IFMT) == S_IFREG

/-- `S_ISLNK(m)`: the file-type bits of `m` equal `S_IFLNK`. -/
def S_ISLNK (m : Nat) : Bool := (m &&& S_IFMT) == S_IFLNK

/-- Embeds `DCOPY_is_directory` (treewalk.c lines 33-43): `lstat` the path;
on failure return false, otherwise `S_ISDIR(st_mode) && !S_ISLNK(st_mode)`.
The ambient filesystem is passed as the `lstat` function itself. -/
def DCOPY_is_directory (lstat : List Nat → Option StatBuf) (path : List Nat) : Bool :=
  match lstat path with
  | none => false
  | some statbuf => S_ISDIR statbuf.st_mode && !(S_ISLNK statbuf.st_mode)

/-- Embeds `DCOPY_is_regular_file` (treewalk.c lines 48-58): `lstat` the
path; on failure return false, otherwise
`S_ISREG(st_mode) && !S_ISLNK(st_mode)`. -/
def DCOPY_is_regular_file (lstat : List Nat → Option StatBuf) (path : List Nat) : Bool :=
  match lstat path with
  | none => false
  | some statbuf => S_ISREG statbuf.st_mode && !(S_ISLNK statbuf.st_mode)

/-- C `strncmp` on byte lists.  A list models the bytes of a NUL-terminated
C string up to (excluding) its terminator, so a list element is never 0 for
a genuine C string; running off the end of a list corresponds to reaching
the terminator. -/
def strncmp : List Nat → List Nat → Nat → Int
  | _, _, 0 => 0
  | [], [], _ + 1 => 0
  | [], b :: _, _ + 1 => 0 - (b : Int)
  | a :: _, [], _ + 1 => (a : Int) - 0
  | a :: s, b :: t, n + 1 => if a = b then strncmp s t n else (a : Int) - (b : Int)

/-- One more than the largest value of a `uint32_t`; casts and arithmetic
on `uint32_t` reduce modulo this. -/
def UINT32_MOD : Nat := 2 ^ 32

/-- One observable side effect of a treewalk callback invocation, in order.
`mkdirP p` records running the shell command `mkdir -p p` (idempotent
creation of directory `p` and all its missing ancestors; a pre-existing
directory is not an error).  `opendirEff p` records attempting to open
directory `p` for listing.  `enqueue op` records handing the encoded form
of `op` to the queue engine.  `exitFailure` records `exit(EXIT_FAILURE)`;
nothing follows it in a trace. -/
inductive Effect where
  | mkdirP (path : List Nat)
  | opendirEff (path : List Nat)
  | enqueue (op : DCOPY_operation_t)
  | exitFailure
deriving DecidableEq

/-- The operations enqueued in an effect trace, in order. -/
def enqueuedOps (tr : List Effect) : List DCOPY_operation_t :=
  tr.filterMap fun e =>
    match e with
    | Effect.enqueue o => some o
    | _ => none

/-- Embeds `DCOPY_stat_process_file` (treewalk.c lines 117-138).  `C` is the
value of the `DCOPY_CHUNK_SIZE` constant (defined in dcp.h, not under src/;
per the spec a fixed positive integer constant).  The C code computes
`uint32_t num_chunks = (uint32_t)file_size / DCOPY_CHUNK_SIZE`: the 64-bit
size is truncated to 32 bits before the division, and the loop enqueues one
COPY operation per index below `num_chunks`, each carrying the full
`file_size`.  The final-partial-chunk test `num_chunks * DCOPY_CHUNK_SIZE <
file_size` multiplies in 32-bit arithmetic and compares against the 64-bit
size. -/
def DCOPY_stat_process_file (C : Nat) (op : DCOPY_operation_t) (file_size : Nat) :
    List Effect :=
  let num_chunks : Nat := (file_size % UINT32_MOD) / C
  ((List.range num_chunks).map fun chunk_index =>
    Effect.enqueue
      ⟨OpKind.COPY, chunk_index, op.operand, op.source_base_offset,
        op.dest_base_appendix, file_size⟩)
  ++ (if (num_chunks * C) % UINT32_MOD < file_size then
        [Effect.enqueue
          ⟨OpKind.COPY, num_chunks, op.operand, op.source_base_offset,
            op.dest_base_appendix, file_size⟩]
      else [])

/-- Embeds `DCOPY_stat_process_dir` (treewalk.c lines 145-216).  First the
destination directory path is built by `sprintf` — destination root,
optional `dest_base_appendix` and the operand with its leading
`source_base_offset` bytes stripped (`op->operand + op->source_base_offset`),
joined by `/` (byte 47) — and created with `mkdir -p`.  Then the source
directory is opened: on failure the reliable/unreliable policy applies; on
success every entry except those for which `strncmp` matches `"."` or
`".."` is enqueued as a TREEWALK operation on `operand/entry` with chunk
index 0 and the parent's offsets and file size.  `dirListing` is `none`
when `opendir` fails, otherwise the `readdir` sequence of entry names. -/
def DCOPY_stat_process_dir (cfg : DCOPY_options_t) (op : DCOPY_operation_t)
    (dirListing : Option (List (List Nat))) : List Effect :=
  let cmd_path : List Nat :=
    match op.dest_base_appendix with
    | some a => cfg.dest_path ++ [47] ++ a ++ [47] ++ op.operand.drop op.source_base_offset
    | none => cfg.dest_path ++ [47] ++ op.operand.drop op.source_base_offset
  Effect.mkdirP cmd_path :: Effect.opendirEff op.operand ::
    (match dirListing with
     | none =>
       if cfg.reliable_filesystem then [Effect.exitFailure]
       else
         [Effect.enqueue
           ⟨OpKind.TREEWALK, op.chunk, op.operand, op.source_base_offset,
             op.dest_base_appendix, op.file_size⟩]
     | some entries =>
       entries.filterMap fun curr_dir_name =>
         if strncmp curr_dir_name [46] 2 ≠ 0 ∧ strncmp curr_dir_name [46, 46] 3 ≠ 0 then
           some (Effect.enqueue
             ⟨OpKind.TREEWALK, 0, op.operand ++ [47] ++ curr_dir_name,
               op.source_base_offset, op.dest_base_appendix, op.file_size⟩)
         else none)

/-- The filesystem as seen by one callback invocation: the result of
`lstat(op->operand)` (`none` on failure) and, when the directory branch is
taken, the result of `opendir`/`readdir` on the operand (`none` when
`opendir` fails). -/
structure FSView where
  statResult : Option StatBuf
  dirListing : Option (List (List Nat))
deriving DecidableEq

/-- Embeds `DCOPY_do_treewalk` (treewalk.c lines 64-111).  `lstat` the
operand; on failure either exit (reliable filesystem) or re-enqueue the
identical TREEWALK operation.  Otherwise dispatch: directory-and-not-link
to `DCOPY_stat_process_dir`, regular-and-not-link to
`DCOPY_stat_process_file` with the statted size, anything else to the same
reliable/unreliable policy. -/
def DCOPY_do_treewalk (C : Nat) (cfg : DCOPY_options_t) (fsv : FSView)
    (op : DCOPY_operation_t) : List Effect :=
  match fsv.statResult with
  | none =>
    if cfg.reliable_filesystem then [Effect.exitFailure]
    else
      [Effect.enqueue
        ⟨OpKind.TREEWALK, op.chunk, op.operand, op.source_base_offset,
          op.dest_base_appendix, op.file_size⟩]
  | some statbuf =>
    if S_ISDIR statbuf.st_mode && !(S_ISLNK statbuf.st_mode) then
      DCOPY_stat_process_dir cfg op fsv.dirListing
    else if S_ISREG statbuf.st_mode && !(S_ISLNK statbuf.st_mode) then
      DCOPY_stat_process_file C op statbuf.st_size
    else
      if cfg.reliable_filesystem then [Effect.exitFailure]
      else
        [Effect.enqueue
          ⟨OpKind.TREEWALK, op.chunk, op.operand, op.source_base_offset,
            op.dest_base_appendix, op.file_size⟩]

/-- `op'` is enqueued by some invocation of the treewalk callback on `op`,
under some filesystem view (one derivation step of the traversal). -/
def DerivesIn (C : Nat) (cfg : DCOPY_options_t) (op op' : DCOPY_operation_t) : Prop :=
  ∃ fsv : FSView, op' ∈ enqueuedOps (DCOPY_do_treewalk C cfg fsv op)

/-- Numeric tag of an operation kind on the wire. -/
def kindTag : OpKind → Nat
  | OpKind.TREEWALK => 0
  | OpKind.COPY => 1

/-- Operation kind of a wire tag. -/
def kindOfTag : Nat → Option OpKind
  | 0 => some OpKind.TREEWALK
  | 1 => some OpKind.COPY
  | _ => none

/-- Modelled from the spec: `DCOPY_encode_operation` is defined in dcp.c,
which is not under src/ (treewalk.c only calls it).  Spec section 4.1
requires a flat, self-delimiting wire form using length-prefixed fields,
safe for operands containing arbitrary bytes.  Numeric fields are single
wire tokens; the optional `dest_base_appendix` is a presence tag followed
by a length-prefixed byte run; the operand is a length-prefixed byte run. -/
def DCOPY_encode_operation (op : DCOPY_operation_t) : List Nat :=
  kindTag op.kind :: op.chunk :: op.source_base_offset :: op.file_size ::
    (match op.dest_base_appendix with
     | none => 0 :: op.operand.length :: op.operand
     | some a => 1 :: a.length :: a ++ (op.operand.length :: op.operand))

/-- Modelled from the spec: `DCOPY_decode_operation` is defined in dcp.c,
which is not under src/.  Inverse of `DCOPY_encode_operation`; malformed
input yields `none` rather than a silently truncated operation. -/
def DCOPY_decode_operation (w : List Nat) : Option DCOPY_operation_t :=
  match w with
  | k :: c :: sbo :: fs :: tag :: rest =>
    match kindOfTag k with
    | none => none
    | some kd =>
      match tag with
      | 0 =>
        match rest with
        | len :: rest2 =>
          if rest2.length = len then some ⟨kd, c, rest2, sbo, none, fs⟩ else none
        | [] => none
      | 1 =>
        match rest with
        | alen :: rest2 =>
          if alen ≤ rest2.length then
            match rest2.drop alen with
            | len :: rest4 =>
              if rest4.length = len then
                some ⟨kd, c, rest4, sbo, some (rest2.take alen), fs⟩
              else none
            | [] => none
          else none
        | [] => none
      | _ => none
  | _ => none

/-- A trace records a dispatch to the directory expander: it contains a
`mkdir -p` effect (the expander's first action). -/
def dispatchedToExpander (tr : List Effect) : Bool :=
  tr.any fun e =>
    match e with
    | Effect.mkdirP _ => true
    | _ => false

/-- A trace records output of the file chunker: some enqueued operation is a
COPY chunk (only the chunker creates COPY operations). -/
def dispatchedToChunker (tr : List Effect) : Bool :=
  (enqueuedOps tr).any fun o => o.kind == OpKind.COPY

example : DCOPY_decode_operation (DCOPY_encode_operation
    ⟨OpKind.COPY, 3, [1, 0, 47, 255], 2, some [58, 0], 99⟩) =
    some ⟨OpKind.COPY, 3, [1, 0, 47, 255], 2, some [58, 0], 99⟩ := by decide

example : DCOPY_decode_operation (DCOPY_encode_operation
    ⟨OpKind.TREEWALK, 0, [47], 0, none, 0⟩) =
    some ⟨OpKind.TREEWALK, 0, [47], 0, none, 0⟩ := by decide

example :
    (enqueuedOps (DCOPY_stat_process_file 4 ⟨OpKind.TREEWALK, 0, [97], 1, none, 9⟩ 9)).length
      = 3 := by decide

example :
    (enqueuedOps (DCOPY_stat_process_file 4 ⟨OpKind.TREEWALK, 0, [97], 1, none, 8⟩ 8)).length
      = 2 := by decide

example :
    (enqueuedOps (DCOPY_stat_process_file 4 ⟨OpKind.TREEWALK, 0, [97], 1, none, 0⟩ 0)).length
      = 0 := by decide

/-- The file-type bits of a mode cannot be both `S_IFDIR` and `S_IFREG`. -/
theorem S_ISDIR_and_S_ISREG_eq_false (m : Nat) : (S_ISDIR m && S_ISREG m) = false := by
  unfold S_ISDIR S_ISREG
  by_cases h : m &&& S_IFMT = S_IFDIR
  · rw [h]
    decide
  · have hb : ((m &&& S_IFMT) == S_IFDIR) = false := by
      simp [h]
    rw [hb]
    simp

/-- A symbolic-link mode is not a directory mode. -/
theorem S_ISDIR_eq_false_of_S_ISLNK (m : Nat) (h : S_ISLNK m = true) :
    S_ISDIR m = false := by
  unfold S_ISLNK at h
  unfold S_ISDIR
  have h' : m &&& S_IFMT = S_IFLNK := by simpa using h
  rw [h']
  decide

/-- A symbolic-link mode is not a regular-file mode. -/
theorem S_ISREG_eq_false_of_S_ISLNK (m : Nat) (h : S_ISLNK m = true) :
    S_ISREG m = false := by
  unfold S_ISLNK at h
  unfold S_ISREG
  have h' : m &&& S_IFMT = S_IFLNK := by simpa using h
  rw [h']
  decide

/-- A directory mode is not a symbolic-link mode. -/
theorem S_ISLNK_eq_false_of_S_ISDIR (m : Nat) (h : S_ISDIR m = true) :
    S_ISLNK m = false := by
  unfold S_ISDIR at h
  unfold S_ISLNK
  have h' : m &&& S_IFMT = S_IFDIR := by simpa using h
  rw [h']
  decide

/-- C3: decoding the encoding of any constructible operation — operand and
appendix bytes arbitrary, embedded separators included — returns the
original operation on every field. -/
theorem claim_C3_codec_round_trip (op : DCOPY_operation_t) :
    DCOPY_decode_operation (DCOPY_encode_operation op) = some op := by
  obtain ⟨kd, c, operand, sbo, app, fs⟩ := op
  cases app with
  | none =>
    cases kd <;>
      simp [DCOPY_encode_operation, DCOPY_decode_operation, kindTag, kindOfTag]
  | some a =>
    cases kd <;>
      simp [DCOPY_encode_operation, DCOPY_decode_operation, kindTag, kindOfTag]

/-- No COPY operation is ever enqueued by the directory expander. -/
theorem not_dispatchedToChunker_process_dir (cfg : DCOPY_options_t)
    (op : DCOPY_operation_t) (dl : Option (List (List Nat))) :
    dispatchedToChunker (DCOPY_stat_process_dir cfg op dl) = false := by
  unfold dispatchedToChunker DCOPY_stat_process_dir enqueuedOps
  cases dl with
  | none =>
    by_cases h : cfg.reliable_filesystem <;> simp [h, kindTag]
  | some entries =>
    simp only [List.filterMap_cons]
    induction entries with
    | nil => simp
    | cons n t ih =>
      by_cases h : strncmp n [46] 2 ≠ 0 ∧ strncmp n [46, 46] 3 ≠ 0 <;>
        simp only [List.filterMap_cons, h, if_pos, if_neg, ite_true, ite_false] <;>
        simpa [h] using ih

/-- No `mkdir -p` effect is ever produced by the file chunker. -/
theorem not_dispatchedToExpander_process_file (C : Nat) (op : DCOPY_operation_t)
    (file_size : Nat) :
    dispatchedToExpander (DCOPY_stat_process_file C op file_size) = false := by
  unfold dispatchedToExpander DCOPY_stat_process_file
  by_cases h : (file_size % UINT32_MOD / C * C) % UINT32_MOD < file_size <;>
    simp [h, List.any_map, Function.comp]

/-- C9: the two classifiers are never both true on the same lookup, and one
callback invocation never both runs the expander and emits chunker output:
an operation is dispatched to at most one of the two. -/
theorem claim_C9_exclusive_dispatch (lstat : List Nat → Option StatBuf)
    (path : List Nat) (C : Nat) (cfg : DCOPY_options_t) (fsv : FSView)
    (op : DCOPY_operation_t) :
    (DCOPY_is_directory lstat path && DCOPY_is_regular_file lstat path) = false
    ∧ (dispatchedToExpander (DCOPY_do_treewalk C cfg fsv op)
        && dispatchedToChunker (DCOPY_do_treewalk C cfg fsv op)) = false := by
  constructor
  · unfold DCOPY_is_directory DCOPY_is_regular_file
    cases h : lstat path with
    | none => simp
    | some statbuf =>
      have hex := S_ISDIR_and_S_ISREG_eq_false statbuf.st_mode
      cases hd : S_ISDIR statbuf.st_mode <;> cases hr : S_ISREG statbuf.st_mode <;>
        simp_all
  · unfold DCOPY_do_treewalk
    cases hs : fsv.statResult with
    | none =>
      by_cases h : cfg.reliable_filesystem <;>
        simp [h, dispatchedToExpander, dispatchedToChunker, enqueuedOps]
    | some statbuf =>
      dsimp only
      by_cases hd : (S_ISDIR statbuf.st_mode && !(S_ISLNK statbuf.st_mode)) = true
      · rw [if_pos hd]
        rw [not_dispatchedToChunker_process_dir]
        simp
      · rw [if_neg hd]
        by_cases hr : (S_ISREG statbuf.st_mode && !(S_ISLNK statbuf.st_mode)) = true
        · rw [if_pos hr]
          rw [not_dispatchedToExpander_process_file]
          simp
        · rw [if_neg hr]
          by_cases h : cfg.reliable_filesystem <;>
            simp [h, dispatchedToExpander, dispatchedToChunker, enqueuedOps]

/-- C1: refuted on the code for sizes beyond 32 bits.  With the 4 MiB chunk
size, a file of 2^32 bytes yields exactly 1 enqueued COPY operation because
`(uint32_t)file_size` truncates the size to 0 before the division, while
ceil(2^32 / 4194304) = 1024. -/
theorem claim_C1_truncated_chunk_count :
    (enqueuedOps (DCOPY_stat_process_file 4194304
        ⟨OpKind.TREEWALK, 0, [97], 1, none, 0⟩ (2 ^ 32))).length = 1
    ∧ (2 ^ 32 + 4194304 - 1) / 4194304 = 1024 ∧ 0 < 2 ^ 32 := by
  refine ⟨?_, by norm_num, by norm_num⟩
  rfl

/-- C7: refuted on the code for sizes beyond 32 bits.  With the 4 MiB chunk
size, 2^33 bytes is an exact positive multiple of the chunk size
(`num_full = 2^33 / 4194304 = 2048`, remainder 0), so the claim mandates no
additional partial-range COPY operation; the code nevertheless enqueues one
COPY operation (with chunk index 0), because the truncated
`num_chunks = (uint32_t)(2^33) / 4194304 = 0` makes the partial-chunk test
`0 * 4194304 < 2^33` succeed. -/
theorem claim_C7_spurious_partial_chunk :
    enqueuedOps (DCOPY_stat_process_file 4194304
        ⟨OpKind.TREEWALK, 0, [97], 1, none, 0⟩ (2 ^ 33)) =
      [⟨OpKind.COPY, 0, [97], 1, none, 2 ^ 33⟩]
    ∧ (2 ^ 33) % 4194304 = 0 ∧ (2 ^ 33) / 4194304 = 2048 := by
  refine ⟨?_, by norm_num, by norm_num⟩
  rfl

/-- C2: on any of the three error paths — `lstat` failure, unsupported
object type, or `opendir` failure on a directory — a reliable filesystem
terminates the process with a failure status (nothing was enqueued before
the exit), and an unreliable one re-enqueues exactly one TREEWALK operation
identical to the input and returns without exiting and with no other
enqueues. -/
theorem claim_C2_retry_or_fatal (C : Nat) (cfg : DCOPY_options_t) (fsv : FSView)
    (op : DCOPY_operation_t) (hk : op.kind = OpKind.TREEWALK)
    (herr :
      fsv.statResult = none
      ∨ (∃ sb, fsv.statResult = some sb
          ∧ (S_ISDIR sb.st_mode && !(S_ISLNK sb.st_mode)) = false
          ∧ (S_ISREG sb.st_mode && !(S_ISLNK sb.st_mode)) = false)
      ∨ (∃ sb, fsv.statResult = some sb
          ∧ (S_ISDIR sb.st_mode && !(S_ISLNK sb.st_mode)) = true
          ∧ fsv.dirListing = none)) :
    (cfg.reliable_filesystem = true →
      ∃ pre, DCOPY_do_treewalk C cfg fsv op = pre ++ [Effect.exitFailure]
        ∧ enqueuedOps pre = [])
    ∧ (cfg.reliable_filesystem = false →
      enqueuedOps (DCOPY_do_treewalk C cfg fsv op) = [op]
      ∧ Effect.exitFailure ∉ DCOPY_do_treewalk C cfg fsv op) := by
  obtain ⟨kd, c, operand, sbo, app, fs⟩ := op
  cases hk
  rcases herr with hnone | ⟨sb, hsb, hd, hr⟩ | ⟨sb, hsb, hd, hdl⟩
  · constructor
    · intro hrel
      refine ⟨[], ?_, rfl⟩
      simp [DCOPY_do_treewalk, hnone, hrel]
    · intro hrel
      simp [DCOPY_do_treewalk, hnone, hrel, enqueuedOps]
  · constructor
    · intro hrel
      refine ⟨[], ?_, rfl⟩
      simp [DCOPY_do_treewalk, hsb, hd, hr, hrel]
    · intro hrel
      simp [DCOPY_do_treewalk, hsb, hd, hr, hrel, enqueuedOps]
  · constructor
    · intro hrel
      refine ⟨[Effect.mkdirP ?_, Effect.opendirEff operand], ?_, rfl⟩
      · exact
          match app with
          | some a => cfg.dest_path ++ [47] ++ a ++ [47] ++ operand.drop sbo
          | none => cfg.dest_path ++ [47] ++ operand.drop sbo
      · simp [DCOPY_do_treewalk, hsb, hd, hdl, hrel, DCOPY_stat_process_dir]
    · intro hrel
      constructor
      · simp [DCOPY_do_treewalk, hsb, hd, hdl, hrel, DCOPY_stat_process_dir, enqueuedOps]
      · simp [DCOPY_do_treewalk, hsb, hd, hdl, hrel, DCOPY_stat_process_dir]

/-- Witness for C2: a failed `lstat` under an unreliable filesystem
re-enqueues exactly the original TREEWALK operation, at a concrete input. -/
theorem claim_C2_retry_or_fatal_witness :
    ((⟨false, [100]⟩ : DCOPY_options_t).reliable_filesystem = true →
      ∃ pre, DCOPY_do_treewalk 4 ⟨false, [100]⟩ ⟨none, none⟩
          ⟨OpKind.TREEWALK, 0, [97], 0, none, 5⟩ = pre ++ [Effect.exitFailure]
        ∧ enqueuedOps pre = [])
    ∧ ((⟨false, [100]⟩ : DCOPY_options_t).reliable_filesystem = false →
      enqueuedOps (DCOPY_do_treewalk 4 ⟨false, [100]⟩ ⟨none, none⟩
          ⟨OpKind.TREEWALK, 0, [97], 0, none, 5⟩)
        = [⟨OpKind.TREEWALK, 0, [97], 0, none, 5⟩]
      ∧ Effect.exitFailure ∉ DCOPY_do_treewalk 4 ⟨false, [100]⟩ ⟨none, none⟩
          ⟨OpKind.TREEWALK, 0, [97], 0, none, 5⟩) :=
  claim_C2_retry_or_fatal 4 ⟨false, [100]⟩ ⟨none, none⟩
    ⟨OpKind.TREEWALK, 0, [97], 0, none, 5⟩ rfl (Or.inl rfl)

/-- C5: an `lstat` that reports a symbolic link makes both classifiers
return false, and the driver routes such an operation — whatever the link
points at — to the retry-or-fatal branch: the whole trace is either the
fatal exit or the single identical re-enqueue, never expander or chunker
output. -/
theorem claim_C5_symlink_excluded (C : Nat) (cfg : DCOPY_options_t) (fsv : FSView)
    (op : DCOPY_operation_t) (sb : StatBuf)
    (h1 : fsv.statResult = some sb) (h2 : S_ISLNK sb.st_mode = true) :
    (∀ lstat : List Nat → Option StatBuf, ∀ path : List Nat,
      lstat path = some sb →
        DCOPY_is_directory lstat path = false
        ∧ DCOPY_is_regular_file lstat path = false)
    ∧ DCOPY_do_treewalk C cfg fsv op =
        (if cfg.reliable_filesystem then [Effect.exitFailure]
         else
           [Effect.enqueue
             ⟨OpKind.TREEWALK, op.chunk, op.operand, op.source_base_offset,
               op.dest_base_appendix, op.file_size⟩]) := by
  have hd := S_ISDIR_eq_false_of_S_ISLNK sb.st_mode h2
  have hr := S_ISREG_eq_false_of_S_ISLNK sb.st_mode h2
  constructor
  · intro lstat path hp
    constructor
    · simp [DCOPY_is_directory, hp, hd]
    · simp [DCOPY_is_regular_file, hp, hr]
  · simp [DCOPY_do_treewalk, h1, h2, hd, hr]

/-- Witness for C5: a symbolic link (mode `S_IFLNK`, as for a link to a
directory) is classified as neither and is re-enqueued unchanged under an
unreliable filesystem, at a concrete input. -/
theorem claim_C5_symlink_excluded_witness :
    (∀ lstat : List Nat → Option StatBuf, ∀ path : List Nat,
      lstat path = some ⟨0xA000, 7⟩ →
        DCOPY_is_directory lstat path = false
        ∧ DCOPY_is_regular_file lstat path = false)
    ∧ DCOPY_do_treewalk 4 ⟨false, [100]⟩ ⟨some ⟨0xA000, 7⟩, none⟩
          ⟨OpKind.TREEWALK, 2, [97], 1, some [98], 7⟩ =
        (if (⟨false, [100]⟩ : DCOPY_options_t).reliable_filesystem then
          [Effect.exitFailure]
         else
           [Effect.enqueue ⟨OpKind.TREEWALK, 2, [97], 1, some [98], 7⟩]) :=
  claim_C5_symlink_excluded 4 ⟨false, [100]⟩ ⟨some ⟨0xA000, 7⟩, none⟩
    ⟨OpKind.TREEWALK, 2, [97], 1, some [98], 7⟩ ⟨0xA000, 7⟩ rfl (by decide)

/-- C6: for an operation whose `lstat` reports a directory, the driver's
trace begins with the idempotent `mkdir -p` of the destination directory —
destination root, then the optional `dest_base_appendix`, then the operand
with its leading `source_base_offset` bytes stripped, joined by `/` — and
only then the attempt to open the source directory for listing. -/
theorem claim_C6_dest_dir_created_first (C : Nat) (cfg : DCOPY_options_t)
    (fsv : FSView) (op : DCOPY_operation_t) (sb : StatBuf)
    (h1 : fsv.statResult = some sb) (h2 : S_ISDIR sb.st_mode = true) :
    ∃ rest,
      DCOPY_do_treewalk C cfg fsv op =
        Effect.mkdirP
            (match op.dest_base_appendix with
             | some a =>
               cfg.dest_path ++ [47] ++ a ++ [47]
                 ++ op.operand.drop op.source_base_offset
             | none =>
               cfg.dest_path ++ [47] ++ op.operand.drop op.source_base_offset)
          :: Effect.opendirEff op.operand :: rest := by
  have h3 := S_ISLNK_eq_false_of_S_ISDIR sb.st_mode h2
  have htw : DCOPY_do_treewalk C cfg fsv op = DCOPY_stat_process_dir cfg op fsv.dirListing := by
    simp [DCOPY_do_treewalk, h1, h2, h3]
  rw [htw]
  unfold DCOPY_stat_process_dir
  cases happ : op.dest_base_appendix with
  | none => exact ⟨_, rfl⟩
  | some a => exact ⟨_, rfl⟩

/-- Witness for C6: at a concrete directory operation with an appendix, the
trace starts with the `mkdir -p` of the computed destination path, then the
`opendir` of the operand. -/
theorem claim_C6_dest_dir_created_first_witness :
    ∃ rest,
      DCOPY_do_treewalk 4 ⟨true, [100]⟩ ⟨some ⟨0x4000, 0⟩, some [[101]]⟩
          ⟨OpKind.TREEWALK, 0, [115, 47, 99], 1, some [98], 0⟩ =
        Effect.mkdirP
            (match (⟨OpKind.TREEWALK, 0, [115, 47, 99], 1, some [98], 0⟩ :
                DCOPY_operation_t).dest_base_appendix with
             | some a =>
               [100] ++ [47] ++ a ++ [47]
                 ++ ([115, 47, 99].drop 1)
             | none =>
               [100] ++ [47] ++ ([115, 47, 99].drop 1))
          :: Effect.opendirEff [115, 47, 99] :: rest :=
  claim_C6_dest_dir_created_first 4 ⟨true, [100]⟩ ⟨some ⟨0x4000, 0⟩, some [[101]]⟩
    ⟨OpKind.TREEWALK, 0, [115, 47, 99], 1, some [98], 0⟩ ⟨0x4000, 0⟩ rfl (by decide)

/-- The file chunker's trace consists of enqueue effects only; it never
exits the process. -/
theorem exitFailure_not_mem_process_file (C : Nat) (op : DCOPY_operation_t)
    (file_size : Nat) :
    Effect.exitFailure ∉ DCOPY_stat_process_file C op file_size := by
  unfold DCOPY_stat_process_file
  intro h
  rcases List.mem_append.mp h with h1 | h2
  · rcases List.mem_map.mp h1 with ⟨i, _, he⟩
    exact Effect.noConfusion he
  · by_cases hc :
      (file_size % UINT32_MOD / C * C) % UINT32_MOD < file_size
    · rw [if_pos hc] at h2
      simp at h2
    · rw [if_neg hc] at h2
      simp at h2

/-- Under an unreliable filesystem the directory expander never exits the
process. -/
theorem exitFailure_not_mem_process_dir (cfg : DCOPY_options_t)
    (op : DCOPY_operation_t) (dl : Option (List (List Nat)))
    (h : cfg.reliable_filesystem = false) :
    Effect.exitFailure ∉ DCOPY_stat_process_dir cfg op dl := by
  unfold DCOPY_stat_process_dir
  intro hm
  rcases List.mem_cons.mp hm with he | hm2
  · exact Effect.noConfusion he
  rcases List.mem_cons.mp hm2 with he | hm3
  · exact Effect.noConfusion he
  cases dl with
  | none =>
    rw [h] at hm3
    simp at hm3
  | some entries =>
    rcases List.mem_filterMap.mp hm3 with ⟨n, _, hn⟩
    by_cases hc : strncmp n [46] 2 ≠ 0 ∧ strncmp n [46, 46] 3 ≠ 0
    · rw [if_pos hc] at hn
      exact Effect.noConfusion (Option.some.inj hn)
    · rw [if_neg hc] at hn
      exact Option.noConfusion hn

/-- C10: when `reliable_filesystem` is false the treewalk callback never
terminates the process — no trace of any invocation, on any filesystem
view and any operation, contains the fatal exit effect. -/
theorem claim_C10_no_exit_when_unreliable (C : Nat) (cfg : DCOPY_options_t)
    (fsv : FSView) (op : DCOPY_operation_t)
    (h : cfg.reliable_filesystem = false) :
    Effect.exitFailure ∉ DCOPY_do_treewalk C cfg fsv op := by
  unfold DCOPY_do_treewalk
  cases hs : fsv.statResult with
  | none =>
    rw [h]
    simp
  | some statbuf =>
    dsimp only
    by_cases hd : (S_ISDIR statbuf.st_mode && !(S_ISLNK statbuf.st_mode)) = true
    · rw [if_pos hd]
      exact exitFailure_not_mem_process_dir cfg op fsv.dirListing h
    · rw [if_neg hd]
      by_cases hr : (S_ISREG statbuf.st_mode && !(S_ISLNK statbuf.st_mode)) = true
      · rw [if_pos hr]
        exact exitFailure_not_mem_process_file C op statbuf.st_size
      · rw [if_neg hr]
        rw [h]
        simp

/-- Witness for C10: with the unreliable flag, one concrete invocation that
hits the stat-failure path produces a trace free of the exit effect. -/
theorem claim_C10_no_exit_when_unreliable_witness :
    Effect.exitFailure ∉ DCOPY_do_treewalk 4 ⟨false, [100]⟩ ⟨none, none⟩
        ⟨OpKind.TREEWALK, 0, [97], 0, none, 5⟩ :=
  claim_C10_no_exit_when_unreliable 4 ⟨false, [100]⟩ ⟨none, none⟩
    ⟨OpKind.TREEWALK, 0, [97], 0, none, 5⟩ rfl

/-- `strncmp(name, ".", 2)` is zero exactly for the name `"."`, for any
NUL-free name (treewalk.c line 198). -/
theorem strncmp_dot_eq_zero_iff (n : List Nat) (h0 : 0 ∉ n) :
    strncmp n [46] 2 = 0 ↔ n = [46] := by
  rcases n with _ | ⟨a, _ | ⟨b, t⟩⟩
  · decide
  · by_cases ha : a = 46
    · subst ha
      simp [strncmp]
    · have hne : ((a : Int) - 46) ≠ 0 := by omega
      simp [strncmp, ha, hne]
  · have hb : b ≠ 0 := by
      intro hb0
      subst hb0
      exact h0 (by simp)
    by_cases ha : a = 46
    · subst ha
      have hne : ((b : Int) - 0) ≠ 0 := by omega
      simp [strncmp, hne, hb]
    · have hne : ((a : Int) - 46) ≠ 0 := by omega
      simp [strncmp, ha, hne]

/-- `strncmp(name, "..", 3)` is zero exactly for the name `".."`, for any
NUL-free name (treewalk.c line 198). -/
theorem strncmp_dotdot_eq_zero_iff (n : List Nat) (h0 : 0 ∉ n) :
    strncmp n [46, 46] 3 = 0 ↔ n = [46, 46] := by
  rcases n with _ | ⟨a, _ | ⟨b, _ | ⟨c, t⟩⟩⟩
  · decide
  · by_cases ha : a = 46
    · subst ha
      norm_num [strncmp]
    · have hne : ((a : Int) - 46) ≠ 0 := by omega
      simp [strncmp, ha, hne]
  · by_cases ha : a = 46
    · subst ha
      by_cases hbe : b = 46
      · subst hbe
        simp [strncmp]
      · have hne : ((b : Int) - 46) ≠ 0 := by omega
        simp [strncmp, hbe, hne]
    · have hne : ((a : Int) - 46) ≠ 0 := by omega
      simp [strncmp, ha, hne]
  · have hc : c ≠ 0 := by
      intro hc0
      subst hc0
      exact h0 (by simp)
    by_cases ha : a = 46
    · subst ha
      by_cases hbe : b = 46
      · subst hbe
        have hne : ((c : Int) - 0) ≠ 0 := by omega
        simp [strncmp, hne, hc]
      · have hne : ((b : Int) - 46) ≠ 0 := by omega
        simp [strncmp, hbe, hne]
    · have hne : ((a : Int) - 46) ≠ 0 := by omega
      simp [strncmp, ha, hne]

/-- Extracting enqueued operations from a trace of guarded enqueue effects
drops the `Effect.enqueue` wrapper. -/
theorem enqueuedOps_filterMap_enqueue {α : Type} (f : α → DCOPY_operation_t)
    (p : α → Prop) [DecidablePred p] (l : List α) :
    enqueuedOps (l.filterMap fun x => if p x then some (Effect.enqueue (f x)) else none)
      = l.filterMap fun x => if p x then some (f x) else none := by
  induction l with
  | nil => rfl
  | cons a t ih =>
    by_cases h : p a
    · simp only [List.filterMap_cons, if_pos h]
      simpa [enqueuedOps, List.filterMap_cons] using ih
    · simp only [List.filterMap_cons, if_neg h]
      exact ih

/-- A guarded `filterMap` is the `map` of the `filter`. -/
theorem filterMap_guard {α β : Type} (p : α → Prop) [DecidablePred p] (f : α → β)
    (l : List α) :
    (l.filterMap fun x => if p x then some (f x) else none)
      = (l.filter fun x => decide (p x)).map f := by
  induction l with
  | nil => rfl
  | cons a t ih =>
    by_cases h : p a
    · simp [List.filterMap_cons, List.filter_cons, h, ih]
    · simp [List.filterMap_cons, List.filter_cons, h, ih]

/-- The operations enqueued by a successful directory expansion are exactly
the guarded children of the listing. -/
theorem enqueuedOps_process_dir (cfg : DCOPY_options_t) (op : DCOPY_operation_t)
    (es : List (List Nat)) :
    enqueuedOps (DCOPY_stat_process_dir cfg op (some es))
      = es.filterMap fun n =>
          if strncmp n [46] 2 ≠ 0 ∧ strncmp n [46, 46] 3 ≠ 0 then
            some (⟨OpKind.TREEWALK, 0, op.operand ++ [47] ++ n,
              op.source_base_offset, op.dest_base_appendix, op.file_size⟩ :
                DCOPY_operation_t)
          else none := by
  show enqueuedOps
      (es.filterMap fun n =>
        if strncmp n [46] 2 ≠ 0 ∧ strncmp n [46, 46] 3 ≠ 0 then
          some (Effect.enqueue ⟨OpKind.TREEWALK, 0, op.operand ++ [47] ++ n,
            op.source_base_offset, op.dest_base_appendix, op.file_size⟩)
        else none) = _
  exact enqueuedOps_filterMap_enqueue _ _ es

/-- C4: expanding a directory whose NUL-free listing contains the entries
`es` enqueues exactly the TREEWALK children of the entries other than `"."`
and `".."` — one per such entry, with operand parent `/` entry name and
chunk index 0 — in particular exactly as many operations as such entries,
and (for a duplicate-free listing) with no duplicates; names such as
`".hidden"` (`[46, 104]`-style) or `"..."` pass the filter. -/
theorem claim_C4_directory_completeness (cfg : DCOPY_options_t)
    (op : DCOPY_operation_t) (es : List (List Nat))
    (h0 : ∀ n ∈ es, 0 ∉ n) (hnd : es.Nodup) :
    enqueuedOps (DCOPY_stat_process_dir cfg op (some es))
        = (es.filter fun n => decide (n ≠ [46] ∧ n ≠ [46, 46])).map
            (fun n => ⟨OpKind.TREEWALK, 0, op.operand ++ [47] ++ n,
              op.source_base_offset, op.dest_base_appendix, op.file_size⟩)
    ∧ (enqueuedOps (DCOPY_stat_process_dir cfg op (some es))).length
        = (es.filter fun n => decide (n ≠ [46] ∧ n ≠ [46, 46])).length
    ∧ (enqueuedOps (DCOPY_stat_process_dir cfg op (some es))).Nodup := by
  have hmain : enqueuedOps (DCOPY_stat_process_dir cfg op (some es))
      = (es.filter fun n => decide (n ≠ [46] ∧ n ≠ [46, 46])).map
          (fun n => ⟨OpKind.TREEWALK, 0, op.operand ++ [47] ++ n,
            op.source_base_offset, op.dest_base_appendix, op.file_size⟩) := by
    rw [enqueuedOps_process_dir, filterMap_guard]
    have hfc : ∀ n ∈ es,
        (decide (strncmp n [46] 2 ≠ 0 ∧ strncmp n [46, 46] 3 ≠ 0))
          = decide (n ≠ [46] ∧ n ≠ [46, 46]) := by
      intro n hn
      rw [decide_eq_decide]
      exact and_congr (not_congr (strncmp_dot_eq_zero_iff n (h0 n hn)))
        (not_congr (strncmp_dotdot_eq_zero_iff n (h0 n hn)))
    rw [List.filter_congr hfc]
  have hinj : Function.Injective (fun n : List Nat =>
      (⟨OpKind.TREEWALK, 0, op.operand ++ [47] ++ n, op.source_base_offset,
        op.dest_base_appendix, op.file_size⟩ : DCOPY_operation_t)) := by
    intro a b h
    have h2 := congrArg DCOPY_operation_t.operand h
    dsimp at h2
    exact List.append_cancel_left h2
  refine ⟨hmain, by rw [hmain, List.length_map], ?_⟩
  rw [hmain]
  exact (hnd.filter _).map hinj

/-- Witness for C4: a concrete listing containing `"."`, `".."`, `".h"`,
`"..."` and `"a"` expands to exactly the three children other than the
self and parent entries. -/
theorem claim_C4_directory_completeness_witness :
    enqueuedOps (DCOPY_stat_process_dir ⟨false, [100]⟩
        ⟨OpKind.TREEWALK, 0, [115], 1, none, 0⟩
        (some [[46], [46, 46], [46, 104], [46, 46, 46], [97]]))
        = ([[46], [46, 46], [46, 104], [46, 46, 46], [97]].filter
            fun n => decide (n ≠ [46] ∧ n ≠ [46, 46])).map
            (fun n => ⟨OpKind.TREEWALK, 0, [115] ++ [47] ++ n, 1, none, 0⟩)
    ∧ (enqueuedOps (DCOPY_stat_process_dir ⟨false, [100]⟩
        ⟨OpKind.TREEWALK, 0, [115], 1, none, 0⟩
        (some [[46], [46, 46], [46, 104], [46, 46, 46], [97]]))).length
        = ([[46], [46, 46], [46, 104], [46, 46, 46], [97]].filter
            fun n => decide (n ≠ [46] ∧ n ≠ [46, 46])).length
    ∧ (enqueuedOps (DCOPY_stat_process_dir ⟨false, [100]⟩
        ⟨OpKind.TREEWALK, 0, [115], 1, none, 0⟩
        (some [[46], [46, 46], [46, 104], [46, 46, 46], [97]]))).Nodup :=
  claim_C4_directory_completeness ⟨false, [100]⟩
    ⟨OpKind.TREEWALK, 0, [115], 1, none, 0⟩
    [[46], [46, 46], [46, 104], [46, 46, 46], [97]] (by decide) (by decide)

/-- Every operation enqueued by the file chunker is a COPY chunk of the
parent operand carrying the parent's offsets and the full statted size. -/
theorem mem_enqueuedOps_process_file (C : Nat) (op op' : DCOPY_operation_t)
    (fs : Nat) (h : op' ∈ enqueuedOps (DCOPY_stat_process_file C op fs)) :
    ∃ i, op' = ⟨OpKind.COPY, i, op.operand, op.source_base_offset,
      op.dest_base_appendix, fs⟩ := by
  simp only [DCOPY_stat_process_file, enqueuedOps, List.filterMap_append] at h
  rcases List.mem_append.mp h with h1 | h2
  · rcases List.mem_filterMap.mp h1 with ⟨e, he, hmatch⟩
    rcases List.mem_map.mp he with ⟨i, hi, hie⟩
    subst hie
    exact ⟨i, (Option.some.inj hmatch).symm⟩
  · by_cases hcond : (fs % UINT32_MOD / C * C) % UINT32_MOD < fs
    · rw [if_pos hcond] at h2
      rcases List.mem_filterMap.mp h2 with ⟨e, he, hmatch⟩
      rcases List.mem_singleton.mp he with rfl
      exact ⟨_, (Option.some.inj hmatch).symm⟩
    · rw [if_neg hcond] at h2
      simp at h2

/-- Every operation enqueued by one treewalk invocation inherits the
parent's `source_base_offset` and `dest_base_appendix`; COPY chunks carry
the statted full file size, and TREEWALK items carry the parent's
`file_size` field. -/
theorem mem_enqueuedOps_do_treewalk (C : Nat) (cfg : DCOPY_options_t)
    (fsv : FSView) (op op' : DCOPY_operation_t)
    (h : op' ∈ enqueuedOps (DCOPY_do_treewalk C cfg fsv op)) :
    op'.source_base_offset = op.source_base_offset
    ∧ op'.dest_base_appendix = op.dest_base_appendix
    ∧ (op'.kind = OpKind.COPY →
        ∀ sb, fsv.statResult = some sb → op'.file_size = sb.st_size)
    ∧ (op'.kind = OpKind.TREEWALK → op'.file_size = op.file_size) := by
  unfold DCOPY_do_treewalk at h
  rcases hfs : fsv.statResult with _ | sb <;> rw [hfs] at h <;> dsimp only at h
  · by_cases hrel : cfg.reliable_filesystem = true
    · rw [if_pos hrel] at h
      simp [enqueuedOps] at h
    · rw [if_neg hrel] at h
      simp only [enqueuedOps, List.filterMap] at h
      rcases List.mem_singleton.mp h with rfl
      refine ⟨rfl, rfl, ?_, fun _ => rfl⟩
      intro hk
      exact OpKind.noConfusion hk
  · by_cases hd : (S_ISDIR sb.st_mode && !(S_ISLNK sb.st_mode)) = true
    · rw [if_pos hd] at h
      rcases hdl : fsv.dirListing with _ | es <;> rw [hdl] at h
      · unfold DCOPY_stat_process_dir at h
        by_cases hrel : cfg.reliable_filesystem = true
        · rw [if_pos hrel] at h
          simp [enqueuedOps] at h
        · rw [if_neg hrel] at h
          simp only [enqueuedOps, List.filterMap] at h
          rcases List.mem_singleton.mp h with rfl
          refine ⟨rfl, rfl, ?_, fun _ => rfl⟩
          intro hk
          exact OpKind.noConfusion hk
      · rw [enqueuedOps_process_dir] at h
        rcases List.mem_filterMap.mp h with ⟨n, hn, hcond⟩
        by_cases hc : strncmp n [46] 2 ≠ 0 ∧ strncmp n [46, 46] 3 ≠ 0
        · rw [if_pos hc] at hcond
          rcases Option.some.inj hcond with rfl
          refine ⟨rfl, rfl, ?_, fun _ => rfl⟩
          intro hk
          exact OpKind.noConfusion hk
        · rw [if_neg hc] at hcond
          exact Option.noConfusion hcond
    · rw [if_neg hd] at h
      by_cases hr : (S_ISREG sb.st_mode && !(S_ISLNK sb.st_mode)) = true
      · rw [if_pos hr] at h
        rcases mem_enqueuedOps_process_file C op op' sb.st_size h with ⟨i, rfl⟩
        refine ⟨rfl, rfl, ?_, ?_⟩
        · intro _ sb2 hsb2
          exact congrArg StatBuf.st_size (Option.some.inj hsb2)
        · intro hk
          exact OpKind.noConfusion hk
      · rw [if_neg hr] at h
        by_cases hrel : cfg.reliable_filesystem = true
        · rw [if_pos hrel] at h
          simp [enqueuedOps] at h
        · rw [if_neg hrel] at h
          simp only [enqueuedOps, List.filterMap] at h
          rcases List.mem_singleton.mp h with rfl
          refine ⟨rfl, rfl, ?_, fun _ => rfl⟩
          intro hk
          exact OpKind.noConfusion hk

/-- C8: every operation a treewalk invocation enqueues carries the parent's
`source_base_offset` and `dest_base_appendix` unchanged, every COPY chunk
carries the full statted file size (not the chunk's own length), every
TREEWALK child carries the parent's `file_size` field unchanged — and
therefore `source_base_offset` and `dest_base_appendix` are constant over
every traversal subtree (any reflexive-transitive chain of derivations)
rooted at one initial item. -/
theorem claim_C8_offsets_invariant (C : Nat) (cfg : DCOPY_options_t) :
    (∀ (fsv : FSView) (op op' : DCOPY_operation_t),
      op' ∈ enqueuedOps (DCOPY_do_treewalk C cfg fsv op) →
        op'.source_base_offset = op.source_base_offset
        ∧ op'.dest_base_appendix = op.dest_base_appendix
        ∧ (op'.kind = OpKind.COPY →
            ∀ sb, fsv.statResult = some sb → op'.file_size = sb.st_size)
        ∧ (op'.kind = OpKind.TREEWALK → op'.file_size = op.file_size))
    ∧ (∀ a b : DCOPY_operation_t, Relation.ReflTransGen (DerivesIn C cfg) a b →
        b.source_base_offset = a.source_base_offset
        ∧ b.dest_base_appendix = a.dest_base_appendix) := by
  constructor
  · intro fsv op op' h
    exact mem_enqueuedOps_do_treewalk C cfg fsv op op' h
  · intro a b hab
    induction hab with
    | refl => exact ⟨rfl, rfl⟩
    | tail hmid hstep ih =>
      rcases hstep with ⟨fsv2, hmem⟩
      have hp := mem_enqueuedOps_do_treewalk C cfg fsv2 _ _ hmem
      exact ⟨hp.1.trans ih.1, hp.2.1.trans ih.2⟩

/-- Witness for C8: the COPY chunk a concrete invocation enqueues for a
5-byte regular file inherits the parent's offset and appendix and carries
the full statted size. -/
theorem claim_C8_offsets_invariant_witness :
    ((⟨OpKind.COPY, 0, [97], 1, none, 5⟩ : DCOPY_operation_t).source_base_offset
        = (⟨OpKind.TREEWALK, 0, [97], 1, none, 5⟩ :
            DCOPY_operation_t).source_base_offset
      ∧ (⟨OpKind.COPY, 0, [97], 1, none, 5⟩ :
            DCOPY_operation_t).dest_base_appendix
        = (⟨OpKind.TREEWALK, 0, [97], 1, none, 5⟩ :
            DCOPY_operation_t).dest_base_appendix
      ∧ ((⟨OpKind.COPY, 0, [97], 1, none, 5⟩ : DCOPY_operation_t).kind
            = OpKind.COPY →
          ∀ sb, (⟨some ⟨0x8000, 5⟩, none⟩ : FSView).statResult = some sb →
            (⟨OpKind.COPY, 0, [97], 1, none, 5⟩ :
              DCOPY_operation_t).file_size = sb.st_size)
      ∧ ((⟨OpKind.COPY, 0, [97], 1, none, 5⟩ : DCOPY_operation_t).kind
            = OpKind.TREEWALK →
          (⟨OpKind.COPY, 0, [97], 1, none, 5⟩ : DCOPY_operation_t).file_size
            = (⟨OpKind.TREEWALK, 0, [97], 1, none, 5⟩ :
                DCOPY_operation_t).file_size)) :=
  (claim_C8_offsets_invariant 4 ⟨false, [100]⟩).1 ⟨some ⟨0x8000, 5⟩, none⟩
    ⟨OpKind.TREEWALK, 0, [97], 1, none, 5⟩
    ⟨OpKind.COPY, 0, [97], 1, none, 5⟩ (by decide)
